import Mathlib

/-!
Formal model of the transaction-circuit constraints and witness assignment of
zkevm-circuits (src/zkevm-circuits/src/tx_circuit.rs) and of the state-circuit
constraint builder (src/zkevm-circuits/src/state_circuit/constraint_builder.rs).

Gates are embedded as lists of constraint polynomials over a commutative ring
of field elements; a gate is satisfied on an assignment when every listed
polynomial evaluates to zero.  The boolean gadgets (is-zero, is-equal,
binary-number tag indicator, comparator) live in crates outside the provided
sources; following the specification (section 4.2) each is embedded by the
indicator function that its internal constraints certify.
-/

/-- Transaction-table row tags: the closed enumeration of row kinds used by the
tx circuit.  The enumeration itself is declared in table.rs which is outside
the provided sources; the members are exactly those used by tx_circuit.rs. -/
inductive TxFieldTag where
  | Null
  | Nonce
  | GasPrice
  | Gas
  | CallerAddress
  | CalleeAddress
  | IsCreate
  | Value
  | CallDataRLC
  | CallDataLength
  | CallDataGasCost
  | TxDataGasCost
  | ChainID
  | SigV
  | SigR
  | SigS
  | TxSignLength
  | TxSignRLC
  | TxSignHash
  | TxHashLength
  | TxHashRLC
  | TxHash
  | TxType
  | BlockNumber
  | CallData
  deriving DecidableEq, Repr

/-- Transaction types (eth_types::geth_types::TxType, outside the provided
sources).  The tx circuit constrains the tx_type column to PreEip155, Eip155
or L1Msg. -/
inductive TxType where
  | PreEip155
  | Eip155
  | Eip1559
  | Eip2930
  | L1Msg
  deriving DecidableEq, Repr

/-- Modelled from the spec: gadget expression select(c, a, b) = c*a + (1-c)*b
used by the gates (gadgets crate, outside the provided sources). -/
def selectF {F : Type} [CommRing F] (c a b : F) : F := c * a + (1 - c) * b

/-- Modelled from the spec: under the IsZero gadget constraints (a witnessed
inverse plus a low-degree identity, spec 4.2) the exported expression is the
indicator of the value being the zero field element. -/
def isZeroInd {F : Type} [CommRing F] [DecidableEq F] (v : F) : F :=
  if v = 0 then 1 else 0

/-- Modelled from the spec: the IsEqual gadget indicator (spec 4.2). -/
def isEqInd {F : Type} [CommRing F] [DecidableEq F] (a b : F) : F :=
  if a = b then 1 else 0

/-- Modelled from the spec: the binary-number tag encoder exposes for any
enumeration member a degree-1 indicator, 1 on matching rows and 0 elsewhere
(spec 4.2). -/
def tagInd {F : Type} [CommRing F] (t target : TxFieldTag) : F :=
  if t = target then 1 else 0

/-- Modelled from the spec: the binary-number encoder indicator for the
transaction-type column (spec 4.2). -/
def typeInd {F : Type} [CommRing F] (t target : TxType) : F :=
  if t = target then 1 else 0

/-- A gate is satisfied when every one of its constraint polynomials
evaluates to zero. -/
def GateHolds {F : Type} [CommRing F] (g : List F) : Prop := ∀ e ∈ g, e = 0

instance {F : Type} [CommRing F] [DecidableEq F] (g : List F) :
    Decidable (GateHolds g) :=
  List.decidableBAll (fun e => e = 0) g

/-- Columns of the fixed (header) region of the tx table that are read by the
gate named tx_id transition in the fixed part of tx table
(tx_circuit.rs lines 380-431) and by the degree-reduction gate is_calldata. -/
structure FRow (F : Type) where
  qEnable : F
  tag : TxFieldTag
  txId : F
  txType : F
  isPaddingTx : F
  svAddress : F
  blockNum : F
  totalL1PoppedBefore : F
  numTxs : F
  cumNumTxs : F
  numAllTxsAcc : F
  isCalldata : F

/-- Gate is_calldata (tx_circuit.rs lines 552-562): on every enabled row the
degree-reduction column is_calldata equals the CallData tag indicator. -/
def isCalldataGate {F : Type} [CommRing F] (r : FRow F) : List F :=
  [r.qEnable * (tagInd r.tag TxFieldTag.CallData - r.isCalldata)]

/-- The sequence number together with the per-transaction meta columns that
the copy-forward rule seals (tx_circuit.rs lines 402-416): tx_type,
is_padding_tx, sv_address, block_num, total_l1_popped_before, num_txs,
cum_num_txs, num_all_txs_acc. -/
def fMetas {F : Type} (r : FRow F) : F × F × F × F × F × F × F × F × F :=
  (r.txId, r.txType, r.isPaddingTx, r.svAddress, r.blockNum,
   r.totalL1PoppedBefore, r.numTxs, r.cumNumTxs, r.numAllTxsAcc)

/-- Gate named tx_id transition in the fixed part of tx table
(tx_circuit.rs lines 380-431).  Selector: q_enable of the current row times
not(is_calldata) of the next row.  If the next tag is Nonce the sequence
number increments; otherwise the sequence number and all meta columns are
copied. -/
def txIdTransitionGate {F : Type} [CommRing F] (cur next : FRow F) : List F :=
  let sel := cur.qEnable * (1 - next.isCalldata)
  let indNonce : F := tagInd next.tag TxFieldTag.Nonce
  [ sel * (indNonce * (next.txId - (cur.txId + 1))),
    sel * ((1 - indNonce) * (next.txId - cur.txId)),
    sel * ((1 - indNonce) * (next.txType - cur.txType)),
    sel * ((1 - indNonce) * (next.isPaddingTx - cur.isPaddingTx)),
    sel * ((1 - indNonce) * (next.svAddress - cur.svAddress)),
    sel * ((1 - indNonce) * (next.blockNum - cur.blockNum)),
    sel * ((1 - indNonce) * (next.totalL1PoppedBefore - cur.totalL1PoppedBefore)),
    sel * ((1 - indNonce) * (next.numTxs - cur.numTxs)),
    sel * ((1 - indNonce) * (next.cumNumTxs - cur.cumNumTxs)),
    sel * ((1 - indNonce) * (next.numAllTxsAcc - cur.numAllTxsAcc)) ]

/-- Concrete fixed-region row used to instantiate the copy-forward theorem. -/
def c1Cur : FRow (ZMod 11) :=
  { qEnable := 1, tag := TxFieldTag.Nonce, txId := 1, txType := 2,
    isPaddingTx := 0, svAddress := 3, blockNum := 4, totalL1PoppedBefore := 5,
    numTxs := 6, cumNumTxs := 7, numAllTxsAcc := 8, isCalldata := 0 }

/-- Concrete successor row: same transaction, next tag in the header block. -/
def c1Next : FRow (ZMod 11) :=
  { c1Cur with tag := TxFieldTag.GasPrice }

/-- Columns of the calldata region of the tx table that are read by the gates
named tx call data init and tx call data bytes (tx_circuit.rs 1131-1234). -/
structure CRow (F : Type) where
  qEnable : F
  qCalldataFirst : F
  txId : F
  index : F
  value : F
  isCalldata : F
  isFinal : F
  calldataGasCostAcc : F
  calldataRlc : F

/-- Calldata gas cost of one byte: 4 for a zero byte, 16 otherwise
(the select expression of the calldata gates). -/
def gasCostF {F : Type} [CommRing F] [DecidableEq F] (v : F) : F :=
  if v = 0 then 4 else 16

/-- Running calldata gas cost of the byte sequence f after i + 1 bytes. -/
def gasAcc {F : Type} [CommRing F] [DecidableEq F] (f : ℕ → F) : ℕ → F
  | 0 => gasCostF (f 0)
  | i + 1 => gasAcc f i + gasCostF (f (i + 1))

/-- Horner-style fingerprint of the byte sequence f after i + 1 bytes, with
the challenge rand as base. -/
def hornerAcc {F : Type} [CommRing F] (rand : F) (f : ℕ → F) : ℕ → F
  | 0 => f 0
  | i + 1 => hornerAcc rand f i * rand + f (i + 1)

/-- Gate named tx call data init (tx_circuit.rs 1131-1157), active on the
first row of the calldata region when its tx_id is nonzero. -/
def calldataInitGate {F : Type} [CommRing F] [DecidableEq F] (r : CRow F) : List F :=
  let sel := r.qCalldataFirst * (1 - isZeroInd r.txId)
  let gasCost := selectF (isZeroInd r.value) 4 16
  [ sel * (r.index - 0),
    sel * (r.calldataGasCostAcc - gasCost),
    sel * (r.calldataRlc - r.value) ]

/-- Gate named tx call data bytes (tx_circuit.rs 1159-1234), active on every
enabled calldata row with nonzero tx_id, constraining the pair of the row and
its successor. -/
def calldataBytesGate {F : Type} [CommRing F] [DecidableEq F]
    (rand : F) (cur next : CRow F) : List F :=
  let sel := cur.qEnable * cur.isCalldata * (1 - isZeroInd cur.txId)
  let isFinalCur := cur.isFinal
  let gasCostNext := selectF (isZeroInd next.value) 4 16
  let txIdUnchanged := isEqInd cur.txId next.txId
  [ sel * (isFinalCur * (1 - isFinalCur)),
    sel * ((1 - isFinalCur) * (next.index - (cur.index + 1))),
    sel * ((1 - isFinalCur) * (txIdUnchanged - 1)),
    sel * ((1 - isFinalCur) *
      (next.calldataGasCostAcc - (cur.calldataGasCostAcc + gasCostNext))),
    sel * ((1 - isFinalCur) *
      (next.calldataRlc - (cur.calldataRlc * rand + next.value))),
    sel * (isFinalCur * txIdUnchanged),
    sel * (isFinalCur * (1 - isZeroInd next.txId) * (next.index - 0)),
    sel * (isFinalCur * (1 - isZeroInd next.txId) *
      (next.calldataGasCostAcc - gasCostNext)),
    sel * (isFinalCur * (1 - isZeroInd next.txId) *
      (next.calldataRlc - next.value)) ]

/-- Entry condition for the first calldata row of one transaction: either it
is the first row of the whole calldata region, so the gate tx call data init
applies to it, or it follows the final byte row of the previous transaction,
so the is_final branch of the gate tx call data bytes applies to the pair. -/
def EntryOk {F : Type} [CommRing F] [DecidableEq F] (rand : F) (r0 : CRow F) : Prop :=
  (r0.qCalldataFirst = 1 ∧ GateHolds (calldataInitGate r0)) ∨
  (∃ prev : CRow F, prev.qEnable = 1 ∧ prev.isCalldata = 1 ∧ prev.txId ≠ 0 ∧
    prev.isFinal = 1 ∧ GateHolds (calldataBytesGate rand prev r0))

/-- Concrete calldata rows used to instantiate the round-trip theorem: one
transaction with tx_id 1 and the two bytes 0 and 5, followed by the disabled
all-zero region, over the field with eleven elements and challenge 3. -/
def c3Rows : ℕ → CRow (ZMod 11) := fun i =>
  if i = 0 then
    { qEnable := 1, qCalldataFirst := 1, txId := 1, index := 0, value := 0,
      isCalldata := 1, isFinal := 0, calldataGasCostAcc := 4, calldataRlc := 0 }
  else if i = 1 then
    { qEnable := 1, qCalldataFirst := 0, txId := 1, index := 1, value := 5,
      isCalldata := 1, isFinal := 1, calldataGasCostAcc := 9, calldataRlc := 5 }
  else
    { qEnable := 0, qCalldataFirst := 0, txId := 0, index := 0, value := 0,
      isCalldata := 0, isFinal := 0, calldataGasCostAcc := 0, calldataRlc := 0 }

/-- Data of one transaction consumed by the block accounting accumulator
(TxCircuit::assign, tx_circuit.rs 2300-2345): whether it is an L1 message,
its queue index (the nonce field of an L1 message) and its block number. -/
structure TxAcct where
  isL1 : Bool
  queueIndex : ℕ
  blockNumber : ℕ

/-- Accumulator initialization at a block boundary (the init_new_block
closure, tx_circuit.rs 2313-2323), returning the pair of the new
num_all_txs_acc and total_l1_popped_after. -/
def initNewBlock (tx : TxAcct) (totalL1PoppedBefore : ℕ) : ℕ × ℕ :=
  if tx.isL1 then
    (tx.queueIndex - totalL1PoppedBefore + 1, tx.queueIndex + 1)
  else
    (1, totalL1PoppedBefore)

/-- Same-block accumulator step (tx_circuit.rs 2327-2338). -/
def sameBlockStep (tx : TxAcct) (acc totalL1PoppedBefore : ℕ) : ℕ × ℕ :=
  if tx.isL1 then
    (acc + (tx.queueIndex - totalL1PoppedBefore + 1), tx.queueIndex + 1)
  else
    (acc + 1, totalL1PoppedBefore)

/-- Witness computation of (num_all_txs_acc, total_l1_popped) over the
transaction list, threading the running accumulator and the popped counter;
prevBlock is none for the first transaction (tx_circuit.rs 2290-2345,
2634-2636). -/
def numAllTxsGo : List TxAcct → ℕ → ℕ → Option ℕ → ℕ × ℕ
  | [], acc, before, _ => (acc, before)
  | tx :: rest, acc, before, prevBlock =>
    let st :=
      if prevBlock = some tx.blockNumber then sameBlockStep tx acc before
      else initNewBlock tx before
    numAllTxsGo rest st.1 st.2 (some tx.blockNumber)

/-- Final (num_all_txs_acc, total_l1_popped) after processing all
transactions, starting from the given start queue index. -/
def numAllTxsWitness (txs : List TxAcct) (startL1QueueIndex : ℕ) : ℕ × ℕ :=
  numAllTxsGo txs 0 startL1QueueIndex none

/-- Cells read by the signature-verification gates and lookup around one
transaction's ChainID row: valueK is the tx-table value at rotation K from
the ChainID row (SigV, SigR, SigS at rotations 1-3, TxSignHash at rotation
6), txType is the transaction-type column as decoded by its binary-number
chip. -/
structure SigWindow (F : Type) where
  qEnable : F
  tag : TxFieldTag
  isChainId : F
  isL1MsgCol : F
  txType : TxType
  valueCur : F
  value1 : F
  value2 : F
  value3 : F
  value6 : F
  svAddress : F

/-- Gate is_l1_msg (tx_circuit.rs 600-610). -/
def isL1MsgGate {F : Type} [CommRing F] (w : SigWindow F) : List F :=
  [w.qEnable * (w.isL1MsgCol - typeInd w.txType TxType.L1Msg)]

/-- Gate is_chain_id (tx_circuit.rs 576-586). -/
def isChainIdGate {F : Type} [CommRing F] (w : SigWindow F) : List F :=
  [w.qEnable * (tagInd w.tag TxFieldTag.ChainID - w.isChainId)]

/-- Gate named tx signature v (tx_circuit.rs 1239-1290): on the ChainID row,
an Eip155 transaction has v - (2*chain_id + 35) boolean, a PreEip155
transaction has v - 27 boolean, an L1 message has v = 0. -/
def txSignatureVGate {F : Type} [CommRing F] (w : SigWindow F) : List F :=
  [ w.qEnable * (w.isChainId * typeInd w.txType TxType.Eip155 *
      ((w.value1 - w.valueCur * 2 - 35) * (1 - (w.value1 - w.valueCur * 2 - 35)))),
    w.qEnable * (w.isChainId * typeInd w.txType TxType.PreEip155 *
      ((w.value1 - 27) * (1 - (w.value1 - 27)))),
    w.qEnable * (w.isChainId * typeInd w.txType TxType.L1Msg * w.value1) ]

/-- Enable condition of the lookup named Sig table lookup
(tx_circuit.rs 1600-1608): the ChainID row of a non-L1 transaction. -/
def sigLookupCond {F : Type} [CommRing F] (w : SigWindow F) : F :=
  (1 - w.isL1MsgCol) * w.isChainId

/-- Reconstructed recovery id in the Sig table lookup
(tx_circuit.rs 1617-1618). -/
def sigLookupV {F : Type} [CommRing F] (w : SigWindow F) : F :=
  typeInd w.txType TxType.Eip155 * (w.value1 - 2 * w.valueCur - 35) +
  typeInd w.txType TxType.PreEip155 * (w.value1 - 27)

/-- Input tuple of the Sig table lookup (tx_circuit.rs 1620-1646), each
component multiplied by the enable condition: q_enable, msg_hash_rlc, v, r,
s, recovered address, is_valid. -/
def sigLookupInputs {F : Type} [CommRing F] (w : SigWindow F) : List F :=
  [1 * sigLookupCond w, w.value6 * sigLookupCond w,
   sigLookupV w * sigLookupCond w, w.value2 * sigLookupCond w,
   w.value3 * sigLookupCond w, w.svAddress * sigLookupCond w,
   1 * sigLookupCond w]

/-- Tags of one transaction's fixed-region rows, in emission order
(TxCircuit::assign, tx_circuit.rs 2357-2571). -/
def txFixedTags : List TxFieldTag :=
  [TxFieldTag.Nonce, TxFieldTag.GasPrice, TxFieldTag.Gas,
   TxFieldTag.CallerAddress, TxFieldTag.CalleeAddress, TxFieldTag.IsCreate,
   TxFieldTag.Value, TxFieldTag.CallDataRLC, TxFieldTag.CallDataLength,
   TxFieldTag.CallDataGasCost, TxFieldTag.TxDataGasCost, TxFieldTag.ChainID,
   TxFieldTag.SigV, TxFieldTag.SigR, TxFieldTag.SigS, TxFieldTag.TxSignLength,
   TxFieldTag.TxSignRLC, TxFieldTag.TxSignHash, TxFieldTag.TxHashLength,
   TxFieldTag.TxHashRLC, TxFieldTag.TxHash, TxFieldTag.TxType,
   TxFieldTag.BlockNumber]

/-- Concrete window for the C4 witness: the ChainID row of an Eip155
transaction with chain id 1 and v = 37 = 2*1 + 35. -/
def c4W : SigWindow (ZMod 11) :=
  { qEnable := 1, tag := TxFieldTag.ChainID, isChainId := 1, isL1MsgCol := 0,
    txType := TxType.Eip155, valueCur := 1, value1 := 37, value2 := 2,
    value3 := 3, value6 := 6, svAddress := 9 }

/-- Columns read by the cumulative-count gates (tx_circuit.rs 1007-1052).
The sequence number and the counter are the natural numbers committed by the
witness assignment; the corresponding column values are their casts into the
field. -/
structure BRow (F : Type) where
  qEnable : F
  tag : TxFieldTag
  isTagBlockNum : F
  isPaddingTx : F
  txId : ℕ
  cumNumTxs : ℕ

/-- Modelled from the spec: the comparator gadget exports a less-than
indicator for its two range-checked operands (spec 4.2). -/
def ltInd {F : Type} [CommRing F] (a b : ℕ) : F := if a < b then 1 else 0

/-- Modelled from the spec: the comparator gadget equality indicator
(spec 4.2). -/
def eqIndNat {F : Type} [CommRing F] (a b : ℕ) : F := if a = b then 1 else 0

/-- Gate named tx_id <= cum_num_txs (tx_circuit.rs 1040-1052): at a
BlockNumber row of a non-padding transaction the comparator must report
less-than or equal. -/
def txIdLeCumGate {F : Type} [CommRing F] (r : BRow F) : List F :=
  [ r.qEnable * (1 - r.isPaddingTx) *
      (tagInd r.tag TxFieldTag.BlockNumber *
        (ltInd (F := F) r.txId r.cumNumTxs +
          eqIndNat (F := F) r.txId r.cumNumTxs - 1)) ]

/-- Gate is_tag_block_num (tx_circuit.rs 588-598). -/
def isTagBlockNumGate {F : Type} [CommRing F] (r : BRow F) : List F :=
  [ r.qEnable * (tagInd r.tag TxFieldTag.BlockNumber - r.isTagBlockNum) ]

/-- Gate named last non-padding tx must have tx_id == cum_num_txs
(tx_circuit.rs 1007-1029). -/
def lastNonPaddingGate {F : Type} [CommRing F] (cur next : BRow F) : List F :=
  [ cur.qEnable *
      (cur.isTagBlockNum * (1 - cur.isPaddingTx) * next.isPaddingTx *
        ((cur.txId : F) - (cur.cumNumTxs : F))) ]

/-- Concrete row for the C5 witness. -/
def c5Row : BRow (ZMod 11) :=
  { qEnable := 1, tag := TxFieldTag.BlockNumber, isTagBlockNum := 1,
    isPaddingTx := 0, txId := 2, cumNumTxs := 3 }

/-- Columns read by the lookup named block_num is non-decreasing till padding
txs (tx_circuit.rs 830-845). -/
structure GRow (F : Type) where
  isTagBlockNum : F
  isPaddingTx : F
  isCalldata : F
  blockNum : F

/-- Enable condition of the block-number lookup (tx_circuit.rs 833-839): a
BlockNumber row whose next row neither belongs to a padding transaction nor
lies in the calldata region. -/
def blockNumLookupCond {F : Type} [CommRing F] (cur next : GRow F) : F :=
  (1 - next.isPaddingTx) * (1 - next.isCalldata) * cur.isTagBlockNum

/-- Satisfaction of the lookup named block_num is non-decreasing till padding
txs: the gated block-number difference is an entry of the 16-bit range
table. -/
def BlockNumLookupHolds (p : ℕ) (cur next : GRow (ZMod p)) : Prop :=
  ∃ d : ℕ, d < 2 ^ 16 ∧
    blockNumLookupCond cur next * (next.blockNum - cur.blockNum) = (d : ZMod p)

/-- Concrete rows for the C6 witness over the ring of integers modulo
131072 = 2 to the 17th. -/
def c6Cur : GRow (ZMod 131072) :=
  { isTagBlockNum := 1, isPaddingTx := 0, isCalldata := 0, blockNum := 5 }

/-- Concrete successor row for the C6 witness. -/
def c6Next : GRow (ZMod 131072) :=
  { isTagBlockNum := 0, isPaddingTx := 0, isCalldata := 0, blockNum := 7 }

/-- Columns read by the gate is_padding_tx (tx_circuit.rs 978-991). -/
structure PRow (F : Type) where
  qEnable : F
  tag : TxFieldTag
  value : F
  isPaddingTx : F

/-- Gate is_padding_tx (tx_circuit.rs 978-991): at a CallerAddress row the
is_padding_tx column equals the is-zero indicator of the row value. -/
def isPaddingTxGate {F : Type} [CommRing F] [DecidableEq F] (r : PRow F) : List F :=
  [ r.qEnable * (tagInd r.tag TxFieldTag.CallerAddress *
      (r.isPaddingTx - isZeroInd r.value)) ]

/-- Identifiers of the synthesized padding transactions
(TxCircuit::synthesize_sub, tx_circuit.rs 2816-2823): one dummy transaction
per index in txs.len()..max_txs, each with id = index + 1. -/
def paddingTxIds (txsLen maxTxs : ℕ) : List ℕ :=
  (List.range' txsLen (maxTxs - txsLen)).map (fun i => i + 1)

/-- Per-transaction block counters committed by TxCircuit::assign
(tx_circuit.rs 2300-2345): a real transaction at index i gets the number of
transactions in blocks up to and including its own and the number in its own
block; an index beyond the real transactions is a padding transaction and
gets (cum_num_txs, num_txs, is_padding_tx) = (0, 0, true). -/
def assignBlockCounters (blocks : List ℕ) (i : ℕ) : ℕ × ℕ × Bool :=
  match blocks[i]? with
  | some b =>
      ((blocks.filter (fun x => x ≤ b)).length,
       (blocks.filter (fun x => x = b)).length, false)
  | none => (0, 0, true)

/-- Concrete row for the C7 witness: a CallerAddress row with zero sender. -/
def c7Row : PRow (ZMod 11) :=
  { qEnable := 1, tag := TxFieldTag.CallerAddress, value := 0, isPaddingTx := 1 }

/-- Columns read by the gate named caller address == sv_address if it's not
zero and tx_type != L1Msg (tx_circuit.rs 1292-1311). -/
structure ARow (F : Type) where
  qEnable : F
  isCallerAddress : F
  isL1Msg : F
  value : F
  svAddress : F

/-- Gate named caller address == sv_address if it's not zero and tx_type !=
L1Msg (tx_circuit.rs 1292-1311). -/
def callerSvGate {F : Type} [CommRing F] [DecidableEq F] (r : ARow F) : List F :=
  [ r.qEnable * r.isCallerAddress * (1 - r.isL1Msg) *
      ((1 - isZeroInd r.value) * (r.value - r.svAddress)) ]

/-- Concrete row for the C10 witness: a nonzero sender that must equal the
recovered address. -/
def c10Row : ARow (ZMod 11) :=
  { qEnable := 1, isCallerAddress := 1, isL1Msg := 0, value := 2, svAddress := 2 }

/-- State-circuit constraint builder
(state_circuit/constraint_builder.rs 43-56): named constraints, named
lookups, and the active condition (initially 1). -/
structure ConstraintBuilder (F : Type) where
  constraints : List (String × F)
  lookups : List (String × (F × F))
  condition : F

/-- ConstraintBuilder::new (constraint_builder.rs 50-56). -/
def ConstraintBuilder.new {F : Type} [CommRing F] : ConstraintBuilder F :=
  { constraints := [], lookups := [], condition := 1 }

/-- ConstraintBuilder::require_zero (constraint_builder.rs 317-319): push the
named constraint, gated by the active condition. -/
def ConstraintBuilder.require_zero {F : Type} [CommRing F]
    (cb : ConstraintBuilder F) (name : String) (e : F) : ConstraintBuilder F :=
  { cb with constraints := cb.constraints ++ [(name, cb.condition * e)] }

/-- ConstraintBuilder::require_equal (constraint_builder.rs 321-323). -/
def ConstraintBuilder.require_equal {F : Type} [CommRing F]
    (cb : ConstraintBuilder F) (name : String) (a b : F) : ConstraintBuilder F :=
  cb.require_zero name (a - b)

/-- ConstraintBuilder::require_boolean (constraint_builder.rs 325-327). -/
def ConstraintBuilder.require_boolean {F : Type} [CommRing F]
    (cb : ConstraintBuilder F) (name : String) (e : F) : ConstraintBuilder F :=
  cb.require_zero name (e * (1 - e))

/-- ConstraintBuilder::add_lookup (constraint_builder.rs 338-342): the lookup
key is multiplied by the active condition. -/
def ConstraintBuilder.add_lookup {F : Type} [CommRing F]
    (cb : ConstraintBuilder F) (name : String) (key table : F) :
    ConstraintBuilder F :=
  { cb with lookups := cb.lookups ++ [(name, (key * cb.condition, table))] }

/-- ConstraintBuilder::condition (constraint_builder.rs 344-349): save the
active condition, multiply it by the sub-condition, run the body, then
restore the saved condition. -/
def ConstraintBuilder.condition_call {F : Type} [CommRing F]
    (cb : ConstraintBuilder F) (sub : F)
    (body : ConstraintBuilder F → ConstraintBuilder F) : ConstraintBuilder F :=
  let cb2 := body { cb with condition := cb.condition * sub }
  { cb2 with condition := cb.condition }

/-- Registration calls a builder body can make, including nested condition
scopes. -/
inductive CBOp (F : Type) where
  | require_zero (name : String) (e : F)
  | require_equal (name : String) (a b : F)
  | require_boolean (name : String) (e : F)
  | add_lookup (name : String) (key table : F)
  | scope (sub : F) (ops : List (CBOp F))

mutual

/-- Interpretation of one registration call on a builder; a scope call
inlines ConstraintBuilder::condition with the body running the nested
calls. -/
def runOp {F : Type} [CommRing F] (cb : ConstraintBuilder F) : CBOp F → ConstraintBuilder F
  | CBOp.require_zero n e => cb.require_zero n e
  | CBOp.require_equal n a b => cb.require_equal n a b
  | CBOp.require_boolean n e => cb.require_boolean n e
  | CBOp.add_lookup n k t => cb.add_lookup n k t
  | CBOp.scope sub ops =>
      let inner := runList { cb with condition := cb.condition * sub } ops
      { inner with condition := cb.condition }

/-- Interpretation of a list of registration calls, left to right. -/
def runList {F : Type} [CommRing F] (cb : ConstraintBuilder F) : List (CBOp F) → ConstraintBuilder F
  | [] => cb
  | op :: rest => runList (runOp cb op) rest

end

/-- A builder state extends another when the condition is unchanged, the
previously registered constraints and lookups are an unchanged prefix, and
every newly registered constraint and lookup key carries the base condition
as a factor. -/
def CBExtends {F : Type} [CommRing F] (cb cb2 : ConstraintBuilder F) : Prop :=
  cb2.condition = cb.condition ∧
  (∃ cs, cb2.constraints = cb.constraints ++ cs ∧
    ∀ c ∈ cs, ∃ g, c.2 = cb.condition * g) ∧
  (∃ ls, cb2.lookups = cb.lookups ++ ls ∧
    ∀ l ∈ ls, ∃ g, l.2.1 = cb.condition * g)

/-- Concrete builder body for the C8 witness. -/
def c8Ops : List (CBOp (ZMod 11)) :=
  [CBOp.require_zero "a" 3, CBOp.scope 5 [CBOp.add_lookup "b" 7 2]]

/-- Check in TxCircuit::new_from_block (tx_circuit.rs 2775-2791):
construction aborts when some transaction's chain id differs from the
block's chain id. -/
def newFromBlockCheck (blockChainId : ℕ) (txChainIds : List ℕ) :
    Except String Unit :=
  if txChainIds.all (fun c => c = blockChainId) then Except.ok ()
  else Except.error "inconsistent chain id"

/-- Check in TxCircuit::synthesize_sub (tx_circuit.rs 2814): the number of
transactions must not exceed max_txs. -/
def synthesizeSubCheck (txsLen maxTxs : ℕ) : Except String Unit :=
  if txsLen ≤ maxTxs then Except.ok ()
  else Except.error "assertion failed: txs.len() <= max_txs"

/-- Loop skeleton of the calldata assignment (TxCircuit::assign,
tx_circuit.rs 2642-2706): the running byte count over the per-transaction
calldata lengths, with the in-loop assertion calldata_count < max_calldata
that runs once per byte, so only for a transaction with nonempty calldata. -/
def calldataCheckGo (maxCalldata : ℕ) : ℕ → List ℕ → Except String ℕ
  | cnt, [] => Except.ok cnt
  | cnt, l :: rest =>
      if 0 < l ∧ ¬(cnt + l < maxCalldata) then
        Except.error "assertion failed: calldata_count < self.max_calldata"
      else calldataCheckGo maxCalldata (cnt + l) rest

/-- Abort-or-complete behavior of the calldata assignment loop over the
per-transaction calldata lengths. -/
def assignCalldataCheck (calldataLens : List ℕ) (maxCalldata : ℕ) :
    Except String ℕ :=
  calldataCheckGo maxCalldata 0 calldataLens

theorem copy_forward_step {F : Type} [CommRing F] (cur next : FRow F)
    (hg : GateHolds (txIdTransitionGate cur next))
    (hc : GateHolds (isCalldataGate next))
    (hq : cur.qEnable = 1) (hqn : next.qEnable = 1)
    (hnc : next.tag ≠ TxFieldTag.CallData) :
    (next.tag = TxFieldTag.Nonce → next.txId = cur.txId + 1) ∧
    (next.tag ≠ TxFieldTag.Nonce → fMetas next = fMetas cur) := by
  have hcall : next.isCalldata = 0 := by
    have h := hc _ (List.mem_singleton.mpr rfl)
    rw [hqn, tagInd, if_neg hnc] at h
    have h2 : (0 : F) - next.isCalldata = 0 := by simpa using h
    simpa [sub_eq_zero] using h2.symm
  simp only [GateHolds, txIdTransitionGate, List.forall_mem_cons] at hg
  obtain ⟨h1, h2, h3, h4, h5, h6, h7, h8, h9, h10, -⟩ := hg
  constructor
  · intro hn
    rw [hq, hcall, tagInd, if_pos hn] at h1
    have : next.txId - (cur.txId + 1) = 0 := by simpa using h1
    exact sub_eq_zero.mp this
  · intro hn
    rw [hq, hcall, tagInd, if_neg hn] at h2 h3 h4 h5 h6 h7 h8 h9 h10
    have e2 : next.txId = cur.txId := sub_eq_zero.mp (by simpa using h2)
    have e3 : next.txType = cur.txType := sub_eq_zero.mp (by simpa using h3)
    have e4 : next.isPaddingTx = cur.isPaddingTx := sub_eq_zero.mp (by simpa using h4)
    have e5 : next.svAddress = cur.svAddress := sub_eq_zero.mp (by simpa using h5)
    have e6 : next.blockNum = cur.blockNum := sub_eq_zero.mp (by simpa using h6)
    have e7 : next.totalL1PoppedBefore = cur.totalL1PoppedBefore :=
      sub_eq_zero.mp (by simpa using h7)
    have e8 : next.numTxs = cur.numTxs := sub_eq_zero.mp (by simpa using h8)
    have e9 : next.cumNumTxs = cur.cumNumTxs := sub_eq_zero.mp (by simpa using h9)
    have e10 : next.numAllTxsAcc = cur.numAllTxsAcc := sub_eq_zero.mp (by simpa using h10)
    simp [fMetas, e2, e3, e4, e5, e6, e7, e8, e9, e10]

/-- C1: in the fixed (header) region, for every enabled row whose next row is
not a calldata row, if the next tag is the group-start tag Nonce then the
sequence number increments by one, and otherwise the sequence number and every
per-transaction meta column (tx_type, is_padding_tx, sv_address, block_num,
total_l1_popped_before, num_txs, cum_num_txs, num_all_txs_acc) are copied
unchanged; consequently all rows of one transaction's header block share
identical meta-field values. -/
theorem copy_forward_in_fixed_region {F : Type} [CommRing F] :
    (∀ cur next : FRow F,
      GateHolds (txIdTransitionGate cur next) →
      GateHolds (isCalldataGate next) →
      cur.qEnable = 1 → next.qEnable = 1 → next.tag ≠ TxFieldTag.CallData →
      (next.tag = TxFieldTag.Nonce → next.txId = cur.txId + 1) ∧
      (next.tag ≠ TxFieldTag.Nonce → fMetas next = fMetas cur)) ∧
    (∀ (rows : ℕ → FRow F) (m : ℕ),
      (∀ i, i < m →
        GateHolds (txIdTransitionGate (rows i) (rows (i + 1))) ∧
        GateHolds (isCalldataGate (rows (i + 1))) ∧
        (rows i).qEnable = 1 ∧ (rows (i + 1)).qEnable = 1 ∧
        (rows (i + 1)).tag ≠ TxFieldTag.CallData ∧
        (rows (i + 1)).tag ≠ TxFieldTag.Nonce) →
      ∀ i, i ≤ m → fMetas (rows i) = fMetas (rows 0)) := by
  constructor
  · intro cur next hg hc hq hqn hnc
    exact copy_forward_step cur next hg hc hq hqn hnc
  · intro rows m h i
    induction i with
    | zero => intro; rfl
    | succ k ih =>
      intro hk
      have hkm : k < m := Nat.lt_of_succ_le hk
      obtain ⟨hg, hc, hq, hqn, hnc, hnn⟩ := h k hkm
      have step := (copy_forward_step (rows k) (rows (k + 1)) hg hc hq hqn hnc).2 hnn
      exact step.trans (ih (Nat.le_of_lt hkm))

/-- Witness for C1: the copy-forward theorem applied to a concrete pair of
rows of one transaction over the field with eleven elements. -/
theorem copy_forward_in_fixed_region_witness : fMetas c1Next = fMetas c1Cur :=
  (copy_forward_in_fixed_region.1 c1Cur c1Next (by decide) (by decide)
    (by decide) (by decide) (by decide)).2 (by decide)

theorem selectF_gasCost {F : Type} [CommRing F] [DecidableEq F] (v : F) :
    selectF (isZeroInd v) 4 16 = gasCostF v := by
  by_cases h : v = 0 <;> simp [selectF, isZeroInd, gasCostF, h]

theorem calldataBytes_parts {F : Type} [Field F] [DecidableEq F]
    (rand : F) (cur next : CRow F)
    (hg : GateHolds (calldataBytesGate rand cur next))
    (hq : cur.qEnable = 1) (hcd : cur.isCalldata = 1) (ht : cur.txId ≠ 0) :
    (cur.isFinal = 0 ∨ cur.isFinal = 1) ∧
    (cur.isFinal = 0 →
      next.index = cur.index + 1 ∧ next.txId = cur.txId ∧
      next.calldataGasCostAcc = cur.calldataGasCostAcc + gasCostF next.value ∧
      next.calldataRlc = cur.calldataRlc * rand + next.value) ∧
    (cur.isFinal = 1 →
      next.txId ≠ cur.txId ∧
      (next.txId ≠ 0 →
        next.index = 0 ∧ next.calldataGasCostAcc = gasCostF next.value ∧
        next.calldataRlc = next.value)) := by
  have hz : isZeroInd cur.txId = 0 := by simp [isZeroInd, ht]
  simp only [GateHolds, calldataBytesGate, List.forall_mem_cons] at hg
  obtain ⟨h1, h2, h3, h4, h5, h6, h7, h8, h9, -⟩ := hg
  rw [hq, hcd, hz] at h1 h2 h3 h4 h5 h6 h7 h8 h9
  simp only [sub_zero, mul_one, one_mul] at h1 h2 h3 h4 h5 h6 h7 h8 h9
  refine ⟨?_, ?_, ?_⟩
  · rcases mul_eq_zero.mp h1 with h | h
    · exact Or.inl h
    · exact Or.inr (sub_eq_zero.mp h).symm
  · intro hf0
    rw [hf0, sub_zero, one_mul] at h2 h3 h4 h5
    have heq : next.txId = cur.txId := by
      by_cases h : cur.txId = next.txId
      · exact h.symm
      · exfalso
        rw [isEqInd, if_neg h] at h3
        simp at h3
    refine ⟨sub_eq_zero.mp h2, heq, ?_, ?_⟩
    · have := sub_eq_zero.mp h4
      rwa [selectF_gasCost] at this
    · exact sub_eq_zero.mp h5
  · intro hf1
    rw [hf1, one_mul] at h6 h7 h8 h9
    have hne : next.txId ≠ cur.txId := by
      intro h
      rw [isEqInd, if_pos h.symm] at h6
      exact one_ne_zero h6
    refine ⟨hne, ?_⟩
    intro htn
    have hzn : isZeroInd next.txId = 0 := by simp [isZeroInd, htn]
    rw [hzn] at h7 h8 h9
    simp only [sub_zero, one_mul] at h7 h8 h9
    refine ⟨by simpa using h7, ?_, sub_eq_zero.mp h9⟩
    have := sub_eq_zero.mp h8
    rwa [selectF_gasCost] at this

theorem c3_entry {F : Type} [Field F] [DecidableEq F] (rand : F) (r0 : CRow F)
    (h : EntryOk rand r0) (ht : r0.txId ≠ 0) :
    r0.index = 0 ∧ r0.calldataGasCostAcc = gasCostF r0.value ∧
    r0.calldataRlc = r0.value := by
  rcases h with ⟨hqf, hg⟩ | ⟨prev, hq, hcd, hpt, hfin, hg⟩
  · have hz : isZeroInd r0.txId = 0 := by simp [isZeroInd, ht]
    simp only [GateHolds, calldataInitGate, List.forall_mem_cons] at hg
    obtain ⟨h1, h2, h3, -⟩ := hg
    rw [hqf, hz] at h1 h2 h3
    simp only [sub_zero, mul_one, one_mul] at h1 h2 h3
    refine ⟨by simpa using h1, ?_, sub_eq_zero.mp h3⟩
    have := sub_eq_zero.mp h2
    rwa [selectF_gasCost] at this
  · have hparts := calldataBytes_parts rand prev r0 hg hq hcd hpt
    exact (hparts.2.2 hfin).2 ht

theorem c3_finality {F : Type} [Field F] [DecidableEq F]
    (rand t : F) (rows : ℕ → CRow F) (n : ℕ)
    (ht : t ≠ 0)
    (hcond : ∀ i, i < n →
      (rows i).qEnable = 1 ∧ (rows i).isCalldata = 1 ∧ (rows i).txId = t)
    (hgate : ∀ i, i < n → GateHolds (calldataBytesGate rand (rows i) (rows (i + 1))))
    (hafter : (rows n).txId ≠ t) :
    ∀ i, i < n → (rows i).isFinal = if i = n - 1 then 1 else 0 := by
  intro i hi
  obtain ⟨hq, hcd, hti⟩ := hcond i hi
  have hti0 : (rows i).txId ≠ 0 := by rw [hti]; exact ht
  have hparts := calldataBytes_parts rand (rows i) (rows (i + 1)) (hgate i hi) hq hcd hti0
  by_cases he : i = n - 1
  · rw [if_pos he]
    rcases hparts.1 with h0 | h1
    · exfalso
      have step := hparts.2.1 h0
      have hn1 : i + 1 = n := by omega
      have : (rows (i + 1)).txId = t := by rw [step.2.1, hti]
      rw [hn1] at this
      exact hafter this
    · exact h1
  · rw [if_neg he]
    rcases hparts.1 with h0 | h1
    · exact h0
    · exfalso
      have hne := (hparts.2.2 h1).1
      have hi1 : i + 1 < n := by omega
      have : (rows (i + 1)).txId = t := (hcond (i + 1) hi1).2.2
      rw [this, hti] at hne
      exact hne rfl

theorem c3_chain {F : Type} [Field F] [DecidableEq F]
    (rand t : F) (rows : ℕ → CRow F) (n : ℕ)
    (ht : t ≠ 0)
    (hcond : ∀ i, i < n →
      (rows i).qEnable = 1 ∧ (rows i).isCalldata = 1 ∧ (rows i).txId = t)
    (hgate : ∀ i, i < n → GateHolds (calldataBytesGate rand (rows i) (rows (i + 1))))
    (hafter : (rows n).txId ≠ t)
    (hentry : EntryOk rand (rows 0)) :
    ∀ i, i < n →
      (rows i).index = (i : F) ∧
      (rows i).calldataGasCostAcc = gasAcc (fun j => (rows j).value) i ∧
      (rows i).calldataRlc = hornerAcc rand (fun j => (rows j).value) i := by
  intro i
  induction i with
  | zero =>
    intro hi
    have h0 := c3_entry rand (rows 0) hentry (by rw [(hcond 0 hi).2.2]; exact ht)
    exact ⟨by simpa using h0.1, by simpa [gasAcc] using h0.2.1,
      by simpa [hornerAcc] using h0.2.2⟩
  | succ k ih =>
    intro hk
    have hkn : k < n := by omega
    obtain ⟨hq, hcd, htk⟩ := hcond k hkn
    have htk0 : (rows k).txId ≠ 0 := by rw [htk]; exact ht
    have hparts := calldataBytes_parts rand (rows k) (rows (k + 1)) (hgate k hkn) hq hcd htk0
    have hfk : (rows k).isFinal = 0 := by
      rw [c3_finality rand t rows n ht hcond hgate hafter k hkn, if_neg (by omega)]
    have step := hparts.2.1 hfk
    have ihh := ih hkn
    refine ⟨?_, ?_, ?_⟩
    · rw [step.1, ihh.1]
      push_cast
      ring
    · rw [step.2.2.1, ihh.2.1]
      rfl
    · rw [step.2.2.2, ihh.2.2]
      rfl

theorem gasAcc_eq_sum {F : Type} [CommRing F] [DecidableEq F] (f : ℕ → F) (i : ℕ) :
    gasAcc f i = ∑ j ∈ Finset.range (i + 1), gasCostF (f j) := by
  induction i with
  | zero => simp [gasAcc]
  | succ k ih => rw [gasAcc, Finset.sum_range_succ, ih]

/-- C3: calldata accumulator round-trip.  First part: after the final byte row
of a transaction the sequence number must change.  Second part: for the rows
of one transaction in the calldata region (a maximal run of rows sharing a
nonzero tx_id, entered through the init gate or through the previous
transaction's final row), the constraints force the position to be
0, 1, ..., n-1, the gas-cost accumulator to follow gasAcc (so the final row
carries the sum of the per-byte costs, 4 per zero byte and 16 otherwise), the
fingerprint accumulator to follow the Horner fold with the challenge as base,
and exactly the last row to be marked final. -/
theorem calldata_roundtrip {F : Type} [Field F] [DecidableEq F] :
    (∀ (rand : F) (cur next : CRow F),
      cur.qEnable = 1 → cur.isCalldata = 1 → cur.txId ≠ 0 → cur.isFinal = 1 →
      GateHolds (calldataBytesGate rand cur next) → next.txId ≠ cur.txId) ∧
    (∀ (rand t : F) (rows : ℕ → CRow F) (n : ℕ),
      0 < n → t ≠ 0 →
      (∀ i, i < n →
        (rows i).qEnable = 1 ∧ (rows i).isCalldata = 1 ∧ (rows i).txId = t) →
      (∀ i, i < n → GateHolds (calldataBytesGate rand (rows i) (rows (i + 1)))) →
      (rows n).txId ≠ t →
      EntryOk rand (rows 0) →
      (∀ i, i < n →
        (rows i).index = (i : F) ∧
        (rows i).calldataGasCostAcc = gasAcc (fun j => (rows j).value) i ∧
        (rows i).calldataRlc = hornerAcc rand (fun j => (rows j).value) i ∧
        (rows i).isFinal = (if i = n - 1 then 1 else 0)) ∧
      gasAcc (fun j => (rows j).value) (n - 1) =
        ∑ j ∈ Finset.range n, gasCostF ((rows j).value)) := by
  constructor
  · intro rand cur next hq hcd ht hfin hg
    exact ((calldataBytes_parts rand cur next hg hq hcd ht).2.2 hfin).1
  · intro rand t rows n hn ht hcond hgate hafter hentry
    constructor
    · intro i hi
      have hchain := c3_chain rand t rows n ht hcond hgate hafter hentry i hi
      have hfin := c3_finality rand t rows n ht hcond hgate hafter i hi
      exact ⟨hchain.1, hchain.2.1, hchain.2.2, hfin⟩
    · rw [gasAcc_eq_sum]
      have : n - 1 + 1 = n := by omega
      rw [this]

/-- Witness for C3: the round-trip theorem applied to the concrete two-byte
transaction over the field with eleven elements. -/
theorem calldata_roundtrip_witness :
    (c3Rows 1).calldataGasCostAcc = gasAcc (fun j => (c3Rows j).value) 1 ∧
    (c3Rows 1).isFinal = (if (1 : ℕ) = 2 - 1 then (1 : ZMod 11) else 0) := by
  have h1 : (0 : ℕ) < 2 := by norm_num
  have h2 : (1 : ZMod 11) ≠ 0 := by decide
  have h3 : ∀ i, i < 2 →
      (c3Rows i).qEnable = 1 ∧ (c3Rows i).isCalldata = 1 ∧ (c3Rows i).txId = 1 := by
    decide
  have h4 : ∀ i, i < 2 → GateHolds (calldataBytesGate 3 (c3Rows i) (c3Rows (i + 1))) := by
    decide
  have h5 : (c3Rows 2).txId ≠ 1 := by decide
  have h6 : EntryOk 3 (c3Rows 0) := Or.inl ⟨by decide, by decide⟩
  haveI : Fact (Nat.Prime 11) := ⟨by norm_num⟩
  have h := (calldata_roundtrip.2 3 1 c3Rows 2 h1 h2 h3 h4 h5 h6).1 1 (by norm_num)
  exact ⟨h.2.1, h.2.2.2⟩

/-- C2 counterexample: three consecutive same-block L1 messages with queue
indices q1 = 0 < q2 = 1 < q3 = 2 and initial popped-before c = 0 yield a
final all-transactions count of 3 = q3 - c + 1, not q3 - c + 2 = 4 as the
claim states. -/
theorem l1_queue_triple_counterexample :
    (numAllTxsWitness [⟨true, 0, 7⟩, ⟨true, 1, 7⟩, ⟨true, 2, 7⟩] 0).1 ≠
      2 - 0 + 2 := by
  decide

/-- C2 (amended): the block accounting accumulator behaves as described (an
L1 message contributes queue_index - popped + 1 and advances popped to
queue_index + 1, any other transaction contributes 1 and leaves popped
unchanged, and the accumulator is re-initialized at a block boundary), and
for three consecutive same-block L1 messages with queue indices q1 < q2 < q3
and initial popped-before c the final all-transactions count is
q3 - c + 1. -/
theorem num_all_txs_accounting :
    (∀ (tx : TxAcct) (acc before : ℕ), tx.isL1 = true →
      sameBlockStep tx acc before =
        (acc + (tx.queueIndex - before + 1), tx.queueIndex + 1)) ∧
    (∀ (tx : TxAcct) (acc before : ℕ), tx.isL1 = false →
      sameBlockStep tx acc before = (acc + 1, before)) ∧
    (∀ (tx : TxAcct) (rest : List TxAcct) (acc before : ℕ)
        (prevBlock : Option ℕ),
      prevBlock ≠ some tx.blockNumber →
      numAllTxsGo (tx :: rest) acc before prevBlock =
        numAllTxsGo rest (initNewBlock tx before).1 (initNewBlock tx before).2
          (some tx.blockNumber)) ∧
    (∀ (b c q1 q2 q3 : ℕ), c ≤ q1 → q1 < q2 → q2 < q3 →
      (numAllTxsWitness [⟨true, q1, b⟩, ⟨true, q2, b⟩, ⟨true, q3, b⟩] c).1 =
        q3 - c + 1) := by
  refine ⟨?_, ?_, ?_, ?_⟩
  · intro tx acc before h
    simp [sameBlockStep, h]
  · intro tx acc before h
    simp [sameBlockStep, h]
  · intro tx rest acc before pb h
    simp [numAllTxsGo, h]
  · intro b c q1 q2 q3 h1 h2 h3
    simp only [numAllTxsWitness, numAllTxsGo, initNewBlock, sameBlockStep,
      if_true, if_pos, reduceCtorEq, if_neg, ite_true, Option.some.injEq]
    norm_num
    omega

/-- Witness for C2 (amended): the accounting theorem applied at the concrete
queue indices 0 < 1 < 2 with popped-before 0. -/
theorem num_all_txs_accounting_witness :
    (numAllTxsWitness [⟨true, 0, 9⟩, ⟨true, 1, 9⟩, ⟨true, 2, 9⟩] 0).1 =
      2 - 0 + 1 :=
  num_all_txs_accounting.2.2.2 9 0 0 1 2 (by norm_num) (by norm_num)
    (by norm_num)

/-- C4: the Sig-table lookup is made exactly once per transaction, at its
ChainID row, with inputs (q_enable, message-hash fingerprint, reconstructed
v, r, s, recovered address, validity 1); v is reconstructed as
v - 2*chain_id - 35 for an Eip155 transaction and v - 27 for a PreEip155
transaction; for an L1 message the lookup is disabled (condition 0) and the
gate tx signature v forces v = 0; on rows other than the ChainID row the
lookup condition is 0; and the fixed region of one transaction contains
exactly one ChainID row. -/
theorem sig_table_lookup_per_tx {F : Type} [CommRing F] :
    (∀ w : SigWindow F, w.qEnable = 1 → GateHolds (isL1MsgGate w) →
      w.isChainId = 1 →
      (w.txType = TxType.Eip155 →
        sigLookupCond w = 1 ∧
        sigLookupInputs w = [1, w.value6, w.value1 - 2 * w.valueCur - 35,
          w.value2, w.value3, w.svAddress, 1]) ∧
      (w.txType = TxType.PreEip155 →
        sigLookupCond w = 1 ∧
        sigLookupInputs w = [1, w.value6, w.value1 - 27, w.value2, w.value3,
          w.svAddress, 1]) ∧
      (w.txType = TxType.L1Msg →
        sigLookupCond w = 0 ∧
        (GateHolds (txSignatureVGate w) → w.value1 = 0))) ∧
    (∀ w : SigWindow F, w.isChainId = 0 → sigLookupCond w = 0) ∧
    txFixedTags.count TxFieldTag.ChainID = 1 := by
  refine ⟨?_, ?_, by decide⟩
  · intro w hq hgl1 hci
    have h := hgl1 _ (List.mem_singleton.mpr rfl)
    rw [hq, one_mul] at h
    have hcol : w.isL1MsgCol = typeInd w.txType TxType.L1Msg := sub_eq_zero.mp h
    refine ⟨?_, ?_, ?_⟩
    · intro htype
      have hcol0 : w.isL1MsgCol = 0 := by
        rw [hcol, htype, typeInd, if_neg (by decide)]
      have hcond : sigLookupCond w = 1 := by
        rw [sigLookupCond, hcol0, hci]
        ring
      refine ⟨hcond, ?_⟩
      have hv : sigLookupV w = w.value1 - 2 * w.valueCur - 35 := by
        rw [sigLookupV, htype, typeInd, typeInd, if_pos rfl, if_neg (by decide)]
        ring
      simp only [sigLookupInputs, hcond, hv, mul_one, one_mul]
    · intro htype
      have hcol0 : w.isL1MsgCol = 0 := by
        rw [hcol, htype, typeInd, if_neg (by decide)]
      have hcond : sigLookupCond w = 1 := by
        rw [sigLookupCond, hcol0, hci]
        ring
      refine ⟨hcond, ?_⟩
      have hv : sigLookupV w = w.value1 - 27 := by
        rw [sigLookupV, htype, typeInd, typeInd, if_neg (by decide), if_pos rfl]
        ring
      simp only [sigLookupInputs, hcond, hv, mul_one, one_mul]
    · intro htype
      have hcol1 : w.isL1MsgCol = 1 := by
        rw [hcol, htype, typeInd, if_pos rfl]
      refine ⟨by rw [sigLookupCond, hcol1]; ring, ?_⟩
      intro hg
      simp only [GateHolds, txSignatureVGate, List.forall_mem_cons] at hg
      obtain ⟨-, -, h3, -⟩ := hg
      rw [hq, hci, htype, typeInd, if_pos rfl] at h3
      simpa using h3
  · intro w h
    rw [sigLookupCond, h, mul_zero]

/-- Witness for C4: the lookup theorem applied to the concrete Eip155
window over the field with eleven elements. -/
theorem sig_table_lookup_per_tx_witness :
    sigLookupCond c4W = 1 ∧
    sigLookupInputs c4W = [1, c4W.value6, c4W.value1 - 2 * c4W.valueCur - 35,
      c4W.value2, c4W.value3, c4W.svAddress, 1] :=
  (sig_table_lookup_per_tx.1 c4W (by decide) (by decide) (by decide)).1 rfl

/-- C5: at a BlockNumber row of a non-padding transaction the sequence number
is at most the block's cumulative transaction count; and the last non-padding
transaction of a block (a BlockNumber row whose next transaction is padding)
has sequence number exactly equal to that cumulative count. -/
theorem tx_id_le_cum_num_txs (p : ℕ) [NeZero p] [Fact (1 < p)] :
    (∀ r : BRow (ZMod p), GateHolds (txIdLeCumGate r) → r.qEnable = 1 →
      r.isPaddingTx = 0 → r.tag = TxFieldTag.BlockNumber →
      r.txId ≤ r.cumNumTxs) ∧
    (∀ cur next : BRow (ZMod p),
      GateHolds (lastNonPaddingGate cur next) →
      GateHolds (isTagBlockNumGate cur) →
      cur.qEnable = 1 → cur.tag = TxFieldTag.BlockNumber →
      cur.isPaddingTx = 0 → next.isPaddingTx = 1 →
      cur.txId < p → cur.cumNumTxs < p → cur.txId = cur.cumNumTxs) := by
  constructor
  · intro r hg hq hpad htag
    have h := hg _ (List.mem_singleton.mpr rfl)
    rw [hq, hpad, htag, tagInd, if_pos rfl] at h
    by_contra hlt
    push_neg at hlt
    rw [ltInd, if_neg (by omega), eqIndNat, if_neg (by omega)] at h
    simp at h
  · intro cur next hg hgt hq htag hpad hnpad htx hcum
    have hcol : cur.isTagBlockNum = 1 := by
      have h := hgt _ (List.mem_singleton.mpr rfl)
      rw [hq, one_mul, htag, tagInd, if_pos rfl] at h
      exact (sub_eq_zero.mp h).symm
    have h := hg _ (List.mem_singleton.mpr rfl)
    rw [hq, hcol, hpad, hnpad] at h
    have hc : (cur.txId : ZMod p) = (cur.cumNumTxs : ZMod p) :=
      sub_eq_zero.mp (by simpa using h)
    have hv := congrArg ZMod.val hc
    rwa [ZMod.val_cast_of_lt htx, ZMod.val_cast_of_lt hcum] at hv

/-- Witness for C5: the comparator theorem applied to a concrete BlockNumber
row with sequence number 2 and cumulative count 3 modulo 11. -/
theorem tx_id_le_cum_num_txs_witness : c5Row.txId ≤ c5Row.cumNumTxs := by
  have h1 : GateHolds (txIdLeCumGate c5Row) := by decide
  have h2 : c5Row.qEnable = 1 := by decide
  have h3 : c5Row.isPaddingTx = 0 := by decide
  have h4 : c5Row.tag = TxFieldTag.BlockNumber := by decide
  haveI : NeZero (11 : ℕ) := ⟨by norm_num⟩
  haveI : Fact (1 < 11) := ⟨by norm_num⟩
  exact (tx_id_le_cum_num_txs 11).1 c5Row h1 h2 h3 h4

/-- C6: whenever the block-number lookup is enabled (a BlockNumber row whose
next row is neither in a padding transaction nor in the calldata region), the
difference of the two committed block numbers must lie in the 16-bit range
table, so a decrease between consecutive real transactions is rejected: if
the two rows commit the naturals a and b with a at most p - 2^16, then
a is at most b. -/
theorem block_num_non_decreasing (p : ℕ) [NeZero p] :
    ∀ (cur next : GRow (ZMod p)) (a b : ℕ),
      BlockNumLookupHolds p cur next →
      cur.isTagBlockNum = 1 → next.isPaddingTx = 0 → next.isCalldata = 0 →
      cur.blockNum = (a : ZMod p) → next.blockNum = (b : ZMod p) →
      a ≤ p - 2 ^ 16 → a ≤ b := by
  intro cur next a b hlk hc hp hcd ha hb hap
  obtain ⟨d, hd, heq⟩ := hlk
  by_contra hba
  push_neg at hba
  rw [blockNumLookupCond, hp, hcd, hc, ha, hb] at heq
  have heq2 : (b : ZMod p) - (a : ZMod p) = (d : ZMod p) := by
    calc (b : ZMod p) - (a : ZMod p)
        = (1 - 0) * (1 - 0) * 1 * ((b : ZMod p) - (a : ZMod p)) := by ring
      _ = (d : ZMod p) := heq
  have hcast : ((b : ℕ) : ZMod p) = ((a + d : ℕ) : ZMod p) := by
    push_cast
    linear_combination heq2
  rw [show (2 : ℕ) ^ 16 = 65536 from by norm_num] at hd hap
  have hbp : b < p := by omega
  have hadp : a + d < p := by omega
  have hv := congrArg ZMod.val hcast
  rw [ZMod.val_cast_of_lt hbp, ZMod.val_cast_of_lt hadp] at hv
  omega

/-- Witness for C6: the non-decreasing theorem applied to concrete rows with
block numbers 5 and 7 modulo 131072. -/
theorem block_num_non_decreasing_witness : (5 : ℕ) ≤ 7 := by
  have h1 : blockNumLookupCond c6Cur c6Next *
      (c6Next.blockNum - c6Cur.blockNum) = ((2 : ℕ) : ZMod 131072) := by decide
  have h2 : c6Cur.isTagBlockNum = 1 := by decide
  have h3 : c6Next.isPaddingTx = 0 := by decide
  have h4 : c6Next.isCalldata = 0 := by decide
  have h5 : c6Cur.blockNum = ((5 : ℕ) : ZMod 131072) := by decide
  have h6 : c6Next.blockNum = ((7 : ℕ) : ZMod 131072) := by decide
  haveI : NeZero (131072 : ℕ) := ⟨by norm_num⟩
  exact block_num_non_decreasing 131072 c6Cur c6Next 5 7
    ⟨2, by norm_num, h1⟩ h2 h3 h4 h5 h6 (by norm_num)

/-- C7: at a CallerAddress row the is_padding_tx flag equals 1 exactly when
the committed sender value is the zero field element; the witness engine
appends exactly max_txs - txs.len() padding transactions; and every padding
transaction is committed with block count 0 and cumulative count 0. -/
theorem padding_tx_characterization {F : Type} [CommRing F] [DecidableEq F]
    [Nontrivial F] :
    (∀ r : PRow F, GateHolds (isPaddingTxGate r) → r.qEnable = 1 →
      r.tag = TxFieldTag.CallerAddress → (r.isPaddingTx = 1 ↔ r.value = 0)) ∧
    (∀ txsLen maxTxs : ℕ,
      (paddingTxIds txsLen maxTxs).length = maxTxs - txsLen) ∧
    (∀ (blocks : List ℕ) (i : ℕ), blocks.length ≤ i →
      assignBlockCounters blocks i = (0, 0, true)) := by
  refine ⟨?_, ?_, ?_⟩
  · intro r hg hq htag
    have h := hg _ (List.mem_singleton.mpr rfl)
    rw [hq, one_mul, htag, tagInd, if_pos rfl, one_mul] at h
    have he : r.isPaddingTx = isZeroInd r.value := sub_eq_zero.mp h
    constructor
    · intro h1
      by_contra hv
      rw [isZeroInd, if_neg hv] at he
      exact zero_ne_one (he.symm.trans h1)
    · intro hv
      rw [he, isZeroInd, if_pos hv]
  · intro txsLen maxTxs
    simp [paddingTxIds]
  · intro blocks i h
    rw [assignBlockCounters, List.getElem?_eq_none h]

/-- Witness for C7: the characterization applied to a concrete CallerAddress
row with zero sender modulo 11. -/
theorem padding_tx_characterization_witness :
    c7Row.isPaddingTx = 1 ↔ c7Row.value = 0 := by
  have h1 : GateHolds (isPaddingTxGate c7Row) := by decide
  have h2 : c7Row.qEnable = 1 := by decide
  have h3 : c7Row.tag = TxFieldTag.CallerAddress := by decide
  haveI : Fact (1 < 11) := ⟨by norm_num⟩
  exact padding_tx_characterization.1 c7Row h1 h2 h3

/-- C10: the gate tying the committed sender to the recovered signer enforces
equality only when the sender value is nonzero and the transaction is not an
L1 message; a row with zero sender value satisfies the gate for every
sv_address, and so does a row of an L1 message. -/
theorem caller_sv_address_conditional {F : Type} [CommRing F] [DecidableEq F] :
    (∀ r : ARow F, GateHolds (callerSvGate r) → r.qEnable = 1 →
      r.isCallerAddress = 1 → r.isL1Msg = 0 → r.value ≠ 0 →
      r.value = r.svAddress) ∧
    (∀ r : ARow F, r.value = 0 → GateHolds (callerSvGate r)) ∧
    (∀ r : ARow F, r.isL1Msg = 1 → GateHolds (callerSvGate r)) := by
  refine ⟨?_, ?_, ?_⟩
  · intro r hg hq hca hl1 hv
    have h := hg _ (List.mem_singleton.mpr rfl)
    rw [hq, hca, hl1, isZeroInd, if_neg hv] at h
    have h2 : r.value - r.svAddress = 0 := by simpa using h
    exact sub_eq_zero.mp h2
  · intro r hv
    intro e he
    rw [List.mem_singleton.mp he]
    rw [isZeroInd, if_pos hv]
    ring
  · intro r hl1
    intro e he
    rw [List.mem_singleton.mp he, hl1]
    ring

/-- Witness for C10: the enforcement branch applied to a concrete row with
nonzero sender 2 equal to the recovered address, modulo 11. -/
theorem caller_sv_address_conditional_witness : c10Row.value = c10Row.svAddress :=
  caller_sv_address_conditional.1 c10Row (by decide) (by decide) (by decide)
    (by decide) (by decide)

theorem cbExtends_trans {F : Type} [CommRing F] {a b c : ConstraintBuilder F}
    (h1 : CBExtends a b) (h2 : CBExtends b c) : CBExtends a c := by
  obtain ⟨hc1, ⟨cs1, he1, hf1⟩, ⟨ls1, hl1, hg1⟩⟩ := h1
  obtain ⟨hc2, ⟨cs2, he2, hf2⟩, ⟨ls2, hl2, hg2⟩⟩ := h2
  refine ⟨hc2.trans hc1, ⟨cs1 ++ cs2, ?_, ?_⟩, ⟨ls1 ++ ls2, ?_, ?_⟩⟩
  · rw [he2, he1, List.append_assoc]
  · intro x hx
    rcases List.mem_append.mp hx with h | h
    · exact hf1 x h
    · obtain ⟨g, hg⟩ := hf2 x h
      exact ⟨g, by rw [hg, hc1]⟩
  · rw [hl2, hl1, List.append_assoc]
  · intro x hx
    rcases List.mem_append.mp hx with h | h
    · exact hg1 x h
    · obtain ⟨g, hg⟩ := hg2 x h
      exact ⟨g, by rw [hg, hc1]⟩

theorem cbExtends_push {F : Type} [CommRing F] (cb : ConstraintBuilder F)
    (name : String) (e : F) : CBExtends cb (cb.require_zero name e) := by
  refine ⟨rfl, ⟨[(name, cb.condition * e)], rfl, ?_⟩,
    ⟨[], by simp [ConstraintBuilder.require_zero], by simp⟩⟩
  intro c hc
  rw [List.mem_singleton.mp hc]
  exact ⟨e, rfl⟩

mutual

theorem runOp_extends {F : Type} [CommRing F] (cb : ConstraintBuilder F) :
    ∀ op : CBOp F, CBExtends cb (runOp cb op)
  | CBOp.require_zero n e => by
      rw [runOp]
      exact cbExtends_push cb n e
  | CBOp.require_equal n a b => by
      rw [runOp]
      exact cbExtends_push cb n (a - b)
  | CBOp.require_boolean n e => by
      rw [runOp]
      exact cbExtends_push cb n (e * (1 - e))
  | CBOp.add_lookup n k t => by
      rw [runOp]
      refine ⟨rfl, ⟨[], by simp [ConstraintBuilder.add_lookup], by simp⟩,
        ⟨[(n, (k * cb.condition, t))], rfl, ?_⟩⟩
      intro l hl
      rw [List.mem_singleton.mp hl]
      exact ⟨k, mul_comm k cb.condition⟩
  | CBOp.scope sub ops => by
      rw [runOp]
      obtain ⟨hc, ⟨cs, he, hf⟩, ⟨ls, hl, hg⟩⟩ :=
        runList_extends { cb with condition := cb.condition * sub } ops
      refine ⟨rfl, ⟨cs, he, ?_⟩, ⟨ls, hl, ?_⟩⟩
      · intro x hx
        obtain ⟨g, hgx⟩ := hf x hx
        exact ⟨sub * g, by rw [hgx]; ring⟩
      · intro x hx
        obtain ⟨g, hgx⟩ := hg x hx
        exact ⟨sub * g, by rw [hgx]; ring⟩

theorem runList_extends {F : Type} [CommRing F] (cb : ConstraintBuilder F) :
    ∀ ops : List (CBOp F), CBExtends cb (runList cb ops)
  | [] => by
      rw [runList]
      exact ⟨rfl, ⟨[], by simp, by simp⟩, ⟨[], by simp, by simp⟩⟩
  | op :: rest => by
      rw [runList]
      exact cbExtends_trans (runOp_extends cb op)
        (runList_extends (runOp cb op) rest)

end

/-- C8: the builder condition scope.  For every builder state, sub-condition
and body, condition_call restores the active condition exactly to its value
before the call; and for a body made of registration calls (possibly with
nested scopes), the previously registered constraints and lookups are an
unchanged prefix of the result while every constraint and every lookup key
registered inside the body carries the product of the outer condition and
the sub-condition as a factor. -/
theorem condition_scoping {F : Type} [CommRing F] :
    (∀ (cb : ConstraintBuilder F) (sub : F)
        (body : ConstraintBuilder F → ConstraintBuilder F),
      (cb.condition_call sub body).condition = cb.condition) ∧
    (∀ (cb : ConstraintBuilder F) (sub : F) (ops : List (CBOp F)),
      ∃ cs ls,
        (cb.condition_call sub (fun c => runList c ops)).constraints =
          cb.constraints ++ cs ∧
        (cb.condition_call sub (fun c => runList c ops)).lookups =
          cb.lookups ++ ls ∧
        (∀ c ∈ cs, ∃ g, c.2 = cb.condition * sub * g) ∧
        (∀ l ∈ ls, ∃ g, l.2.1 = cb.condition * sub * g)) := by
  constructor
  · intro cb sub body
    rfl
  · intro cb sub ops
    obtain ⟨hc, ⟨cs, he, hf⟩, ⟨ls, hl, hg⟩⟩ :=
      runList_extends { cb with condition := cb.condition * sub } ops
    exact ⟨cs, ls, he, hl, hf, hg⟩

/-- Witness for C8: the scoping theorem applied to a concrete builder body
over the field with eleven elements. -/
theorem condition_scoping_witness :
    ((ConstraintBuilder.new : ConstraintBuilder (ZMod 11)).condition_call 2
        (fun c => runList c c8Ops)).condition =
      (ConstraintBuilder.new : ConstraintBuilder (ZMod 11)).condition :=
  condition_scoping.1 ConstraintBuilder.new 2 (fun c => runList c c8Ops)

theorem calldataCheckGo_aborts (maxCalldata : ℕ) :
    ∀ (lens : List ℕ) (cnt : ℕ), 0 < lens.sum →
      maxCalldata ≤ cnt + lens.sum →
      ∃ msg, calldataCheckGo maxCalldata cnt lens = Except.error msg := by
  intro lens
  induction lens with
  | nil => intro cnt h; simp at h
  | cons l rest ih =>
    intro cnt hpos hle
    rw [calldataCheckGo]
    by_cases hc : 0 < l ∧ ¬(cnt + l < maxCalldata)
    · rw [if_pos hc]
      exact ⟨_, rfl⟩
    · rw [if_neg hc]
      push_neg at hc
      rcases Nat.eq_zero_or_pos l with hl0 | hlpos
      · refine ih (cnt + l) ?_ ?_
        · simp [hl0] at hpos
          simpa [hl0] using hpos
        · simp only [List.sum_cons] at hle
          omega
      · have hlt := hc hlpos
        refine ih (cnt + l) ?_ ?_
        · simp only [List.sum_cons] at hle
          omega
        · simp only [List.sum_cons] at hle
          omega

/-- C9 counterexample: with max_calldata = 0 and an empty batch the total
calldata byte count, 0, reaches max_calldata, yet the assignment loop runs
no assertion and completes without aborting. -/
theorem calldata_capacity_empty_counterexample :
    List.sum ([] : List ℕ) ≥ 0 ∧
      assignCalldataCheck [] 0 = Except.ok 0 := by
  constructor
  · decide
  · rfl

/-- C9 (amended): if the number of transactions exceeds max_txs the
synthesis assertion aborts; if the total calldata byte count is positive and
reaches or exceeds max_calldata the in-loop calldata assertion aborts (a
batch with zero calldata bytes never runs that assertion); and constructing
the circuit from a block whose transactions carry a chain id different from
the block's aborts with a descriptive error. -/
theorem build_time_errors :
    (∀ txsLen maxTxs : ℕ, maxTxs < txsLen →
      ∃ msg, synthesizeSubCheck txsLen maxTxs = Except.error msg) ∧
    (∀ (lens : List ℕ) (maxCalldata : ℕ), 0 < lens.sum →
      maxCalldata ≤ lens.sum →
      ∃ msg, assignCalldataCheck lens maxCalldata = Except.error msg) ∧
    (∀ (blockChainId : ℕ) (txChainIds : List ℕ),
      (∃ c ∈ txChainIds, c ≠ blockChainId) →
      ∃ msg, newFromBlockCheck blockChainId txChainIds = Except.error msg) := by
  refine ⟨?_, ?_, ?_⟩
  · intro txsLen maxTxs h
    rw [synthesizeSubCheck, if_neg (by omega)]
    exact ⟨_, rfl⟩
  · intro lens maxCalldata hpos hle
    exact calldataCheckGo_aborts maxCalldata lens 0 hpos (by omega)
  · intro blockChainId txChainIds ⟨c, hc, hne⟩
    rw [newFromBlockCheck, if_neg ?_]
    · exact ⟨_, rfl⟩
    · intro hall
      rw [List.all_eq_true] at hall
      exact hne (by simpa using hall c hc)

/-- Witness for C9 (amended): the three abort conditions at concrete
inputs. -/
theorem build_time_errors_witness :
    (synthesizeSubCheck 3 2).isOk = false ∧
    (assignCalldataCheck [2, 3] 5).isOk = false ∧
    (newFromBlockCheck 1 [1, 4]).isOk = false := by
  obtain ⟨m1, h1⟩ := build_time_errors.1 3 2 (by norm_num)
  obtain ⟨m2, h2⟩ := build_time_errors.2.1 [2, 3] 5 (by norm_num) (by norm_num)
  obtain ⟨m3, h3⟩ := build_time_errors.2.2 1 [1, 4] ⟨4, by norm_num, by norm_num⟩
  rw [h1, h2, h3]
  exact ⟨rfl, rfl, rfl⟩
